import Mathlib

/-!
Verification of the query-understanding and retrieval-fusion pipeline of the
RAG-QA-Application repository.  The Python sources `query_processor.py` and
`qa_system.py` are shallowly embedded below; strings are modelled as their
ASCII character lists (all inputs appearing in the claims are ASCII).
-/

/-! ## Basic string machinery (ASCII models of the Python primitives) -/

/-- ASCII model of Python's regex class `\s` (space, tab, newline, carriage
return, vertical tab, form feed). -/
def isPySpace (c : Char) : Bool :=
  c == ' ' || c == '\t' || c == '\n' || c == '\r' ||
  c == Char.ofNat 11 || c == Char.ofNat 12

/-- ASCII model of Python's regex class `\w`: alphanumeric or underscore. -/
def isWordChar (c : Char) : Bool :=
  c.isAlphanum || c == '_'

/-- Whether the character list `l` starts with the character list `n`. -/
def startsWithL : List Char → List Char → Bool
  | _, [] => true
  | [], _ :: _ => false
  | c :: cs, d :: ds => c == d && startsWithL cs ds

/-- Whether `n` occurs as a contiguous run inside `l` (Python's `n in l`
for strings). -/
def containsL : List Char → List Char → Bool
  | [], n => n.isEmpty
  | c :: cs, n => startsWithL (c :: cs) n || containsL cs n

/-- Python's substring test `needle in hay`. -/
def containsSub (hay needle : String) : Bool :=
  containsL hay.data needle.data

/-- Model of `re.search("a.*b", l)` on a newline-free string: some occurrence
of `a` is followed (at or after its end) by an occurrence of `b`.  The intent
classifier only receives cleaned queries, whose whitespace has been collapsed
to single spaces, so the "dot does not match newline" caveat is vacuous. -/
def seqMatchL : List Char → List Char → List Char → Bool
  | [], a, b => a.isEmpty && b.isEmpty
  | c :: cs, a, b =>
      (startsWithL (c :: cs) a && containsL ((c :: cs).drop a.length) b) ||
      seqMatchL cs a b

/-- ASCII model of Python's `str.lower()`. -/
def pyLower (s : String) : String :=
  ⟨s.data.map Char.toLower⟩

/-- Helper for `pySplit`: accumulate the current (reversed) token while
scanning. -/
def splitWsAux : List Char → List Char → List (List Char)
  | [], cur => if cur.isEmpty then [] else [cur.reverse]
  | c :: cs, cur =>
      if isPySpace c then
        (if cur.isEmpty then splitWsAux cs [] else cur.reverse :: splitWsAux cs [])
      else splitWsAux cs (c :: cur)

/-- Python's `str.split()` with no argument: split on whitespace runs,
discarding empty tokens. -/
def pySplit (s : String) : List String :=
  (splitWsAux s.data []).map (fun l => ⟨l⟩)

/-- `re.sub(r"\s+", " ", query.strip())` from `_clean_query`: leading and
trailing whitespace is removed and every interior whitespace run becomes a
single space — exactly rejoining the whitespace-split tokens with single
spaces. -/
def collapseWs (s : String) : String :=
  String.intercalate " " (pySplit s)

/-- `re.sub(r"[^\w\s\?\!\.]", " ", query)` from `_clean_query`: every
character outside word characters, whitespace and `? ! .` becomes a space. -/
def stripSpecial (s : String) : String :=
  ⟨s.data.map (fun c =>
    if isWordChar c || isPySpace c || c == '?' || c == '!' || c == '.' then c
    else ' ')⟩

/-! ## query_processor.py -/

/-- `QueryIntent` from query_processor.py. -/
inductive QueryIntent where
  | factual
  | comparative
  | procedural
  | analytical
  | definitional
  | temporal
  | causal
  | unknown
deriving DecidableEq

/-- `QueryAnalysis` from query_processor.py.  `confidence` is modelled in ℚ
(the Python arithmetic is sums of small decimal literals). -/
structure QueryAnalysis where
  original_query : String
  intent : QueryIntent
  entities : List String
  keywords : List String
  expanded_terms : List String
  reformulated_queries : List String
  confidence : ℚ
deriving DecidableEq

/-- `QueryProcessor._clean_query`: collapse whitespace on the stripped query,
replace special characters by spaces, lowercase. -/
def cleanQuery (q : String) : String :=
  pyLower (stripSpecial (collapseWs q))

/-- An intent pattern: either a literal substring or `a.*b`. -/
inductive IntentPat where
  | lit (s : String)
  | dotStar (a b : String)

/-- `re.search(pattern, q)` for the patterns occurring in the intent table. -/
def patMatch (q : String) (p : IntentPat) : Bool :=
  match p with
  | .lit s => containsSub q s
  | .dotStar a b => seqMatchL q.data a.data b.data

/-- `QueryProcessor.intent_patterns`, in the dict's insertion order. -/
def intentTable : List (QueryIntent × List IntentPat) :=
  [ (.factual, [.lit "what is", .lit "what are", .lit "who is", .lit "who are",
      .lit "which is", .lit "which are", .lit "where is", .lit "where are"]),
    (.comparative, [.lit "compare", .lit "difference", .lit "versus", .lit "vs",
      .lit "better than", .lit "worse than", .lit "advantage", .lit "disadvantage"]),
    (.procedural, [.lit "how to", .lit "how do", .lit "how can", .lit "how does",
      .lit "steps to", .lit "process of", .lit "method to"]),
    (.analytical, [.lit "why", .lit "explain", .lit "analyze", .lit "reason for",
      .lit "cause of", .lit "purpose of"]),
    (.definitional, [.lit "define", .lit "definition", .lit "meaning of",
      .dotStar "what does" "mean"]),
    (.temporal, [.lit "when", .lit "time", .lit "date", .lit "history", .lit "timeline"]),
    (.causal, [.lit "causes", .lit "results in", .lit "leads to", .lit "because of"]) ]

/-- First intent in the table one of whose patterns matches. -/
def findIntent (ql : String) : List (QueryIntent × List IntentPat) → QueryIntent
  | [] => .unknown
  | (i, pats) :: rest => if pats.any (patMatch ql) then i else findIntent ql rest

/-- `QueryProcessor._classify_intent`: scan the fixed ordered table of intent
patterns over the lowercased query; first intent with a matching pattern wins,
else `unknown`. -/
def classifyIntent (q : String) : QueryIntent :=
  findIntent (pyLower q) intentTable

/-- ASCII model of Python's `str.isupper()`: at least one letter and every
letter uppercase. -/
def pyIsUpper (s : String) : Bool :=
  s.data.any Char.isAlpha && s.data.all (fun c => !c.isAlpha || c.isUpper)

/-- Scanner for `pyIsTitle`: tracks whether the previous character was cased
and whether any cased character was seen. -/
def istitleGo : List Char → Bool → Bool → Bool
  | [], _, seen => seen
  | c :: cs, prevCased, seen =>
      if c.isUpper then (if prevCased then false else istitleGo cs true true)
      else if c.isLower then (if prevCased then istitleGo cs true true else false)
      else istitleGo cs false seen

/-- ASCII model of Python's `str.istitle()`: every maximal cased run starts
uppercase and continues lowercase, and at least one cased character occurs. -/
def pyIsTitle (s : String) : Bool :=
  istitleGo s.data false false

/-- The fixed `tech_terms` list of `_extract_entities`. -/
def techTerms : List String :=
  ["transformer", "RAG", "BERT", "GPT", "LLM", "NLP", "ML", "AI"]

/-- The list built by `QueryProcessor._extract_entities` before the final
`list(set(...))`: capitalized tokens of the query, then tech terms occurring
as (case-sensitive) substrings. -/
def extractEntitiesRaw (q : String) : List String :=
  (pySplit q).filter (fun w => pyIsUpper w || pyIsTitle w) ++
  techTerms.filter (fun t => containsSub q t)

/-- Model of Python's `list(set(xs))` as a function: the duplicate-free list
of the distinct elements.  CPython's iteration order over a `set` of strings
is hash-dependent; only the membership, duplicate-freeness and cardinality of
this function are faithful to the code.  Order-sensitive statements about
`list(set(...))` are made through the relation `IsPySetList` instead. -/
def pySetList (xs : List String) : List String :=
  xs.dedup

/-- The outputs Python's `list(set(raw))` can produce: a duplicate-free list
with exactly the elements of `raw` (the iteration order of a CPython string
set is hash-seed-dependent and therefore unspecified). -/
def IsPySetList (raw out : List String) : Prop :=
  out.Nodup ∧ (∀ x ∈ out, x ∈ raw) ∧ (∀ x ∈ raw, x ∈ out)

instance (raw out : List String) : Decidable (IsPySetList raw out) := by
  unfold IsPySetList; infer_instance

/-- The fixed `stop_words` set of `_extract_keywords`. -/
def stopWords : List String :=
  ["the", "a", "an", "and", "or", "but", "in", "on", "at", "to", "for", "of",
   "with", "by", "is", "are", "was", "were", "be", "been", "have", "has",
   "had", "do", "does", "did", "will", "would", "could", "should", "may",
   "might", "can", "this", "that", "these", "those"]

/-- `QueryProcessor._extract_keywords`: tokens not in the stop-word set and
of length > 2, keeping order and duplicates. -/
def extractKeywords (q : String) : List String :=
  (pySplit q).filter (fun w => decide (w ∉ stopWords) && decide (2 < w.length))

/-- `QueryProcessor.synonym_dict` as an association list in the dict's
insertion order. -/
def synonymDict : List (String × List String) :=
  [ ("transformer", ["transformer model", "attention mechanism", "self-attention", "BERT", "GPT"]),
    ("RAG", ["retrieval augmented generation", "retrieval generation", "document retrieval"]),
    ("machine learning", ["ML", "artificial intelligence", "AI", "deep learning"]),
    ("neural network", ["neural net", "deep learning model", "AI model"]),
    ("algorithm", ["method", "technique", "approach", "procedure"]),
    ("data", ["information", "dataset", "records", "facts"]),
    ("model", ["system", "framework", "architecture", "approach"]),
    ("training", ["learning", "optimization", "fitting", "education"]),
    ("performance", ["accuracy", "efficiency", "effectiveness", "quality"]),
    ("optimization", ["improvement", "enhancement", "tuning", "refinement"]) ]

/-- `word in synonym_dict` followed by `synonym_dict[word]`, with `[]` when
the token is not a key. -/
def lookupSyn (w : String) : List String :=
  ((synonymDict.lookup w).getD [])

/-- The list built by `QueryProcessor._expand_query` before `list(set(...))`:
for each token of the query that is a key, extend by the key's values. -/
def expandRaw (q : String) : List String :=
  (pySplit q).foldl (fun acc w => acc ++ lookupSyn w) []

/-- `QueryProcessor._reformulate_query`: intent-conditioned templates followed
by the two universal reformulations. -/
def reformulateQuery (q : String) (intent : QueryIntent) : List String :=
  (if intent = .factual then
    (if !(q.startsWith "explain") then ["explain " ++ q] else []) ++
    (if !(q.startsWith "describe") then ["describe " ++ q] else [])
  else if intent = .procedural then
    ["step by step " ++ q, "process of " ++ q]
  else if intent = .comparative then
    ["analysis of " ++ q, "pros and cons of " ++ q]
  else []) ++
  ["information about " ++ q, "details on " ++ q]

/-- `QueryProcessor._calculate_confidence`: base 0.5, +0.2 for a known
intent, +min(0.2, 0.1·entity count) when entities are present, +0.1 when the
query has more than 3 tokens, clamped to 1.0. -/
def calcConfidence (q : String) (intent : QueryIntent) (entities : List String) : ℚ :=
  let c0 : ℚ := 1/2
  let c1 : ℚ := if intent ≠ QueryIntent.unknown then c0 + 1/5 else c0
  let c2 : ℚ := if entities.isEmpty then c1
                else c1 + min (1/5) ((entities.length : ℚ) * (1/10))
  let c3 : ℚ := if 3 < (pySplit q).length then c2 + 1/10 else c2
  min 1 c3

/-- `QueryProcessor.analyze_query`: clean the query, then compute entities,
keywords, intent, expansions, reformulations and confidence from the cleaned
text, keeping the raw input as `original_query`. -/
def analyzeQuery (q : String) : QueryAnalysis :=
  let c := cleanQuery q
  let ents := pySetList (extractEntitiesRaw c)
  let kws := extractKeywords c
  let intent := classifyIntent c
  let exp := pySetList (expandRaw c)
  let ref := reformulateQuery c intent
  let conf := calcConfidence c intent ents
  ⟨q, intent, ents, kws, exp, ref, conf⟩

/-- The list built by `QueryProcessor.generate_search_queries` before the
final `list(set(...))`: the original query, the reformulations, the
expanded-term-augmented variants, the entity-augmented variants. -/
def genSearchQueriesRaw (a : QueryAnalysis) : List String :=
  [a.original_query] ++ a.reformulated_queries ++
  a.expanded_terms.map (fun t => a.original_query ++ " " ++ t) ++
  a.entities.map (fun e => e ++ " " ++ a.original_query)

/-- First-seen-order deduplication, accumulating kept elements. -/
def firstDedupAux (acc : List String) : List String → List String
  | [] => acc
  | x :: xs => if x ∈ acc then firstDedupAux acc xs else firstDedupAux (acc ++ [x]) xs

/-- Modelled from the spec: the insertion-ordered deduplication (first
occurrence kept, order preserved) that the spec requires of
`generate_search_queries`'s output. -/
def firstDedup (xs : List String) : List String :=
  firstDedupAux [] xs

/-! ## qa_system.py -/

/-- A retrieved document (LangChain `Document`): only `page_content` is used
by the pipeline. -/
structure Doc where
  content : String
deriving DecidableEq

/-- One step of the fusion loops in `QASystem.hybrid_search`: the accumulator
pairs `combined_docs` with the `seen_content` set, the latter modelled as the
list of contents in insertion order (only membership in it is ever used). -/
def fuseStep (acc : List Doc × List String) (d : Doc) : List Doc × List String :=
  if d.content ∈ acc.2 then acc else (acc.1 ++ [d], acc.2 ++ [d.content])

/-- The `combined_docs` list of `QASystem.hybrid_search`: all semantic
results first, registering contents as seen, then the keyword results whose
content is unseen. -/
def fuseDocs (sem kw : List Doc) : List Doc :=
  (kw.foldl fuseStep (sem.foldl fuseStep ([], []))).1

/-- The documents actually used for the context: `combined_docs[:k]`. -/
def fusedResult (sem kw : List Doc) (k : ℕ) : List Doc :=
  (fuseDocs sem kw).take k

/-- The keyword strategy's filter in `hybrid_search` (and
`search_by_keywords`): keep pool documents whose lowercased content contains
the lowercased query. -/
def keywordFilter (pool : List Doc) (query : String) : List Doc :=
  pool.filter (fun d => containsSub (pyLower d.content) (pyLower query))

/-- The literal fallback phrase of the prompt contract. -/
def fallbackMsg : String :=
  "I don't have enough information to answer that."

/-- What the synthesis stage does after fusion: either invoke the language
model on a context built from the fused documents, or short-circuit with a
fixed answer and no model call. -/
inductive SynthesisPlan where
  | invoke (context : String)
  | shortCircuit (answer : String)
deriving DecidableEq

/-- Whether the plan invokes the language model. -/
def SynthesisPlan.invokesModel : SynthesisPlan → Bool
  | .invoke _ => true
  | .shortCircuit _ => false

/-- `QASystem.hybrid_search` up to the model call, as a function of the two
VectorStore responses (`semDocs` for the query, `pool` for the neutral probe):
filter the pool by keyword, fuse, and either return the fallback phrase when
`combined_docs` is empty or invoke the model on the joined truncated
context. -/
def hybridPlan (semDocs pool : List Doc) (query : String) (k : ℕ) : SynthesisPlan :=
  let kwDocs := keywordFilter pool query
  let combined := fuseDocs semDocs kwDocs
  if combined.isEmpty then .shortCircuit fallbackMsg
  else .invoke (String.intercalate "\n\n" ((combined.take k).map Doc.content))

/-- Outcome of one language-model invocation attempt. -/
inductive CallOutcome where
  | ok (text : String)
  | err (msg : String)
deriving DecidableEq

/-- The throttling test of the retry loops:
`"reached max retries" in str(e)`. -/
def isThrottling (msg : String) : Bool :=
  containsSub msg "reached max retries"

/-- Trace of the retry loop: number of invocation attempts made, total
enforced delay, and the final outcome. -/
structure RetryTrace where
  attempts : ℕ
  totalDelay : ℕ
  result : Except String String

/-- The body of `for attempt in range(max_retries)` in `answer_question`
(and `search_by_keywords`, `hybrid_search`): on success break; on a
throttling error before the last attempt sleep `delay` and double it; on any
other error (or a throttling error on the last attempt) re-raise.
`remaining` is the number of loop iterations left, `attempt` the current
index, `acc` the delay already slept. -/
def retryAux (outcomes : ℕ → CallOutcome) (maxRetries : ℕ) :
    ℕ → ℕ → ℕ → ℕ → RetryTrace
  | _, _, acc, 0 => ⟨maxRetries, acc, .error "loop exhausted"⟩
  | attempt, delay, acc, r + 1 =>
      match outcomes attempt with
      | .ok t => ⟨attempt + 1, acc, .ok t⟩
      | .err m =>
          if isThrottling m = true ∧ attempt < maxRetries - 1 then
            retryAux outcomes maxRetries (attempt + 1) (delay * 2) (acc + delay) r
          else ⟨attempt + 1, acc, .error m⟩

/-- The retry loop with the source's constants `max_retries = 3`,
`retry_delay = 2`, applied to the sequence of attempt outcomes. -/
def answerRetry (outcomes : ℕ → CallOutcome) : RetryTrace :=
  retryAux outcomes 3 0 2 0 3

/-! ## Spec-level reformulations and concrete inputs used by the theorems -/

/-- One insertion of first-occurrence content deduplication: keep `d` only if
no document with the same content was kept before. -/
def addDoc (l : List Doc) (d : Doc) : List Doc :=
  if d.content ∈ l.map Doc.content then l else l ++ [d]

/-- Spec-level reformulation of the fusion merge: first-occurrence
deduplication (by content) of a single document list. -/
def specFuse (ds : List Doc) : List Doc :=
  ds.foldl addDoc []

/-- Modelled from the spec: the confidence formula as the claim states it,
`0.5 + 0.2·[intent ≠ UNKNOWN] + min(0.2, 0.1·entity_count)
+ 0.1·[token_count > 3]`, clamped to 1. -/
def specConfidence (q : String) (intent : QueryIntent) (entityCount : ℕ) : ℚ :=
  min 1 (1/2 + (if intent ≠ QueryIntent.unknown then (1/5 : ℚ) else 0)
    + min (1/5) ((entityCount : ℚ) * (1/10))
    + (if 3 < (pySplit q).length then (1/10 : ℚ) else 0))

/-- An outcome sequence with two throttling failures and then success. -/
def throttleTwiceOutcomes : ℕ → CallOutcome := fun n =>
  if n = 0 then .err "Could not connect: reached max retries exceeded"
  else if n = 1 then .err "reached max retries once more"
  else .ok "grounded answer"

/-- An outcome sequence whose first attempt fails with a non-throttling
error. -/
def fatalOutcomes : ℕ → CallOutcome := fun _ =>
  .err "ValidationException: bad model id"

/-! ## Helper lemmas -/

theorem foldl_fuseStep_eq (ds : List Doc) :
    ∀ l : List Doc,
      ds.foldl fuseStep (l, l.map Doc.content)
        = (ds.foldl addDoc l, (ds.foldl addDoc l).map Doc.content) := by
  induction ds with
  | nil => intro l; rfl
  | cons d ds ih =>
      intro l
      simp only [List.foldl_cons]
      by_cases h : d.content ∈ l.map Doc.content
      · rw [show fuseStep (l, l.map Doc.content) d = (l, l.map Doc.content) by
              simp [fuseStep, h],
            show addDoc l d = l by simp [addDoc, h]]
        exact ih l
      · rw [show fuseStep (l, l.map Doc.content) d
              = (l ++ [d], (l ++ [d]).map Doc.content) by
              simp [fuseStep, h],
            show addDoc l d = l ++ [d] by simp [addDoc, h]]
        exact ih (l ++ [d])

theorem fuseDocs_eq_specFuse (sem kw : List Doc) :
    fuseDocs sem kw = specFuse (sem ++ kw) := by
  unfold fuseDocs specFuse
  rw [List.foldl_append]
  have h0 : (([], []) : List Doc × List String) = ([], ([] : List Doc).map Doc.content) := rfl
  rw [h0, foldl_fuseStep_eq, foldl_fuseStep_eq]

theorem foldl_addDoc_nodup (ds : List Doc) :
    ∀ l : List Doc, (l.map Doc.content).Nodup →
      ((ds.foldl addDoc l).map Doc.content).Nodup := by
  induction ds with
  | nil => intro l h; exact h
  | cons d ds ih =>
      intro l h
      simp only [List.foldl_cons]
      by_cases hm : d.content ∈ l.map Doc.content
      · rw [show addDoc l d = l by simp [addDoc, hm]]
        exact ih l h
      · rw [show addDoc l d = l ++ [d] by simp [addDoc, hm]]
        apply ih
        rw [List.map_append]
        simp only [List.map_cons, List.map_nil]
        rw [← List.concat_eq_append]
        exact h.concat hm

/-! ## Claim theorems -/

/-- Claim C5: the fusion merge appends semantic results first, registering
each content as seen, then the unseen keyword results — equivalently it is
the first-occurrence content deduplication of the concatenated lists — and
after truncation to k, fusing semantic ["A","B"] with keyword ["B","C"] at
k = 3 yields ["A","B","C"]. -/
theorem fusion_semantic_precedence :
    (∀ sem kw : List Doc, fuseDocs sem kw = specFuse (sem ++ kw))
    ∧ fusedResult [⟨"A"⟩, ⟨"B"⟩] [⟨"B"⟩, ⟨"C"⟩] 3 = [⟨"A"⟩, ⟨"B"⟩, ⟨"C"⟩] := by
  refine ⟨fuseDocs_eq_specFuse, by decide⟩

/-- Claim C8: every truncated fusion result has length at most the requested
k and contains no two documents with equal content. -/
theorem fusion_result_invariant (sem kw : List Doc) (k : ℕ) :
    (fusedResult sem kw k).length ≤ k
    ∧ ((fusedResult sem kw k).map Doc.content).Nodup := by
  constructor
  · simp [fusedResult]
  · have h : ((fuseDocs sem kw).map Doc.content).Nodup := by
      rw [fuseDocs_eq_specFuse]
      exact foldl_addDoc_nodup _ [] (by simp)
    have hsub : (fusedResult sem kw k).Sublist (fuseDocs sem kw) :=
      List.take_sublist k (fuseDocs sem kw)
    exact h.sublist (hsub.map Doc.content)

/-- Claim C3 counterexample: with empty VectorStore responses for both
strategies, `hybrid_search` returns the fallback phrase without invoking the
model, contradicting the claim that the model is still invoked. -/
theorem empty_fusion_skips_model :
    hybridPlan [] [] "What is RAG?" 3 = .shortCircuit fallbackMsg
    ∧ (hybridPlan [] [] "What is RAG?" 3).invokesModel = false := by
  refine ⟨by decide, by decide⟩

/-- Claim C3 (amended): whenever fusion of the semantic and keyword results
yields zero documents, `hybrid_search` short-circuits with the literal
fallback phrase and never reaches the model call. -/
theorem empty_fusion_short_circuits (semDocs pool : List Doc) (query : String)
    (k : ℕ) (h : fuseDocs semDocs (keywordFilter pool query) = []) :
    hybridPlan semDocs pool query k = .shortCircuit fallbackMsg
    ∧ (hybridPlan semDocs pool query k).invokesModel = false := by
  constructor <;> simp [hybridPlan, h, SynthesisPlan.invokesModel]

/-- Witness for `empty_fusion_short_circuits` at empty store responses. -/
theorem empty_fusion_short_circuits_w :
    hybridPlan [] [] "any question" 2 = .shortCircuit fallbackMsg
    ∧ (hybridPlan [] [] "any question" 2).invokesModel = false :=
  empty_fusion_short_circuits [] [] "any question" 2 (by decide)

/-- Unfolding: a successful attempt stops the retry loop. -/
theorem retryAux_ok (o : ℕ → CallOutcome) (maxR att del acc r : ℕ) (t : String)
    (h : o att = .ok t) :
    retryAux o maxR att del acc (r + 1) = ⟨att + 1, acc, .ok t⟩ := by
  simp only [retryAux, h]

/-- Unfolding: a throttling failure before the last attempt sleeps and
doubles the delay. -/
theorem retryAux_throttle (o : ℕ → CallOutcome) (maxR att del acc r : ℕ)
    (m : String) (h : o att = .err m) (ht : isThrottling m = true)
    (hlt : att < maxR - 1) :
    retryAux o maxR att del acc (r + 1)
      = retryAux o maxR (att + 1) (del * 2) (acc + del) r := by
  have hcond : isThrottling m = true ∧ att < maxR - 1 := ⟨ht, hlt⟩
  simp only [retryAux, h]
  rw [if_pos hcond]

/-- Unfolding: any other failure is re-raised at once. -/
theorem retryAux_fatal (o : ℕ → CallOutcome) (maxR att del acc r : ℕ)
    (m : String) (h : o att = .err m)
    (hc : ¬(isThrottling m = true ∧ att < maxR - 1)) :
    retryAux o maxR att del acc (r + 1) = ⟨att + 1, acc, .error m⟩ := by
  simp only [retryAux, h]
  rw [if_neg hc]

/-- Claim C4: two throttling failures followed by success yield exactly 3
invocation attempts with total enforced delay 2 + 4 = 6 before the success is
returned, while a non-throttling first failure is re-raised after a single
attempt with no delay. -/
theorem retry_policy (f g : ℕ → CallOutcome) (m0 m1 t e : String)
    (hf0 : f 0 = .err m0) (ht0 : isThrottling m0 = true)
    (hf1 : f 1 = .err m1) (ht1 : isThrottling m1 = true)
    (hf2 : f 2 = .ok t)
    (hg0 : g 0 = .err e) (hte : isThrottling e = false) :
    answerRetry f = ⟨3, 6, .ok t⟩ ∧ answerRetry g = ⟨1, 0, .error e⟩ := by
  constructor
  · show retryAux f 3 0 2 0 (2 + 1) = _
    rw [retryAux_throttle f 3 0 2 0 2 m0 hf0 ht0 (by norm_num)]
    show retryAux f 3 1 4 2 (1 + 1) = _
    rw [retryAux_throttle f 3 1 4 2 1 m1 hf1 ht1 (by norm_num)]
    show retryAux f 3 2 8 6 (0 + 1) = _
    rw [retryAux_ok f 3 2 8 6 0 t hf2]
  · show retryAux g 3 0 2 0 (2 + 1) = _
    rw [retryAux_fatal g 3 0 2 0 2 e hg0 (by simp [hte])]

/-- Witness for `retry_policy` at the concrete outcome sequences. -/
theorem retry_policy_w :
    answerRetry throttleTwiceOutcomes = ⟨3, 6, .ok "grounded answer"⟩
    ∧ answerRetry fatalOutcomes
        = ⟨1, 0, .error "ValidationException: bad model id"⟩ :=
  retry_policy throttleTwiceOutcomes fatalOutcomes
    "Could not connect: reached max retries exceeded"
    "reached max retries once more" "grounded answer"
    "ValidationException: bad model id"
    rfl (by decide) rfl (by decide) rfl rfl (by decide)

/-- Claim C1 counterexample: for the analysis of "hello world", the reversed
enumeration of the deduplicated query set is a possible output of
`list(set(search_queries))`, yet it is not the first-seen-order
deduplication and its first element is not the original query. -/
theorem search_queries_unordered :
    IsPySetList (genSearchQueriesRaw (analyzeQuery "hello world"))
      ["details on hello world", "information about hello world", "hello world"]
    ∧ ["details on hello world", "information about hello world", "hello world"]
        ≠ firstDedup (genSearchQueriesRaw (analyzeQuery "hello world"))
    ∧ (["details on hello world", "information about hello world",
        "hello world"].head? == some (analyzeQuery "hello world").original_query)
        = false := by
  refine ⟨by decide, by decide, by decide⟩

/-- Claim C1 (amended): any output of `generate_search_queries` is
duplicate-free and consists exactly of the original query, the reformulated
queries, the expanded-term-augmented variants and the entity-augmented
variants; the enumeration order of the Python set is unspecified, so the
original query is contained in, but need not lead, the output. -/
theorem search_queries_set_semantics (a : QueryAnalysis) (out : List String)
    (h : IsPySetList (genSearchQueriesRaw a) out) :
    out.Nodup ∧ a.original_query ∈ out ∧
    ∀ x, x ∈ out ↔ (x = a.original_query ∨ x ∈ a.reformulated_queries
      ∨ (∃ t ∈ a.expanded_terms, x = a.original_query ++ " " ++ t)
      ∨ (∃ e ∈ a.entities, x = e ++ " " ++ a.original_query)) := by
  obtain ⟨hnd, hsub, hsup⟩ := h
  have hraw : ∀ x, x ∈ genSearchQueriesRaw a ↔
      (x = a.original_query ∨ x ∈ a.reformulated_queries
      ∨ (∃ t ∈ a.expanded_terms, x = a.original_query ++ " " ++ t)
      ∨ (∃ e ∈ a.entities, x = e ++ " " ++ a.original_query)) := by
    intro x
    simp only [genSearchQueriesRaw, List.mem_append, List.mem_singleton,
      List.mem_map]
    constructor
    · rintro (((hx | hx) | ⟨t, ht, hx⟩) | ⟨e, he, hx⟩)
      · exact Or.inl hx
      · exact Or.inr (Or.inl hx)
      · exact Or.inr (Or.inr (Or.inl ⟨t, ht, hx.symm⟩))
      · exact Or.inr (Or.inr (Or.inr ⟨e, he, hx.symm⟩))
    · rintro (hx | hx | ⟨t, ht, hx⟩ | ⟨e, he, hx⟩)
      · exact Or.inl (Or.inl (Or.inl hx))
      · exact Or.inl (Or.inl (Or.inr hx))
      · exact Or.inl (Or.inr ⟨t, ht, hx.symm⟩)
      · exact Or.inr ⟨e, he, hx.symm⟩
  refine ⟨hnd, hsup _ ((hraw _).mpr (Or.inl rfl)), fun x => ?_⟩
  constructor
  · intro hx
    exact (hraw x).mp (hsub x hx)
  · intro hx
    exact hsup x ((hraw x).mpr hx)

/-- Witness for `search_queries_set_semantics`: the original query is a
member of the deduplicated output for the analysis of "hello world". -/
theorem search_queries_set_semantics_w :
    "hello world" ∈ (genSearchQueriesRaw (analyzeQuery "hello world")).dedup :=
  (search_queries_set_semantics (analyzeQuery "hello world")
    ((genSearchQueriesRaw (analyzeQuery "hello world")).dedup) (by decide)).2.1

/-- Claim C2: for "Compare BERT and GPT models" the intent is COMPARATIVE,
but `analyze_query` hands the lowercased cleaned query to
`_extract_entities`, so the uppercase heuristic and the uppercase technical
terms never match and the extracted entities are empty — "BERT" and "GPT"
are not among them. -/
theorem compare_query_entities_empty :
    (analyzeQuery "Compare BERT and GPT models").intent = .comparative
    ∧ (analyzeQuery "Compare BERT and GPT models").entities = [] := by
  refine ⟨by decide, by decide⟩

/-- Claim C6 counterexample: for "What is the use of transformers?" the
keyword list contains "what" (which is absent from the code's stop-word set)
and does not contain "transformers" (the token keeps its trailing question
mark). -/
theorem keywords_contain_what :
    ((analyzeQuery "What is the use of transformers?").keywords.contains
        "what") = true
    ∧ ((analyzeQuery "What is the use of transformers?").keywords.contains
        "transformers") = false := by
  refine ⟨by decide, by decide⟩

/-- Claim C6 (amended): for "What is the use of transformers?" the intent is
FACTUAL and the keywords are exactly ["what", "use", "transformers?"]: the
stop words "is", "the", "of" are excluded and "use" is included, but "what"
is not in the stop-word set and the final token retains its question mark. -/
theorem factual_query_keywords :
    (analyzeQuery "What is the use of transformers?").intent = .factual
    ∧ (analyzeQuery "What is the use of transformers?").keywords
        = ["what", "use", "transformers?"] := by
  refine ⟨by decide, by decide⟩

theorem calcConfidence_eq_spec (q : String) (i : QueryIntent)
    (ents : List String) :
    calcConfidence q i ents = specConfidence q i ents.length := by
  simp only [calcConfidence, specConfidence]
  rcases ents with _ | ⟨e, es⟩
  · simp only [List.isEmpty_nil, if_true, List.length_nil, Nat.cast_zero,
      zero_mul]
    rw [show min (1/5 : ℚ) 0 = 0 from min_eq_right (by norm_num)]
    split_ifs <;> (congr 1 <;> ring)
  · simp only [List.isEmpty_cons, if_false, Bool.false_eq_true]
    split_ifs <;> (congr 1 <;> ring)

theorem calcConfidence_bounds (q : String) (i : QueryIntent)
    (ents : List String) :
    0 ≤ calcConfidence q i ents ∧ calcConfidence q i ents ≤ 1 := by
  have hmin : 0 ≤ min (1/5 : ℚ) ((ents.length : ℚ) * (1/10)) :=
    le_min (by norm_num) (by positivity)
  simp only [calcConfidence]
  refine ⟨le_min (by norm_num) ?_, min_le_left _ _⟩
  split_ifs <;> linarith

/-- Claim C7: for every input string the confidence computed by
`analyze_query` equals the spec's formula (0.5 base, +0.2 for a known
intent, +min(0.2, 0.1·entity count), +0.1 for more than 3 tokens, clamped
to 1) and always lies in [0, 1]. -/
theorem confidence_formula (q : String) :
    (analyzeQuery q).confidence
      = specConfidence (cleanQuery q) (analyzeQuery q).intent
          (analyzeQuery q).entities.length
    ∧ 0 ≤ (analyzeQuery q).confidence ∧ (analyzeQuery q).confidence ≤ 1 := by
  refine ⟨?_, ?_, ?_⟩
  · exact calcConfidence_eq_spec (cleanQuery q) (classifyIntent (cleanQuery q))
      (pySetList (extractEntitiesRaw (cleanQuery q)))
  · exact (calcConfidence_bounds (cleanQuery q) (classifyIntent (cleanQuery q))
      (pySetList (extractEntitiesRaw (cleanQuery q)))).1
  · exact (calcConfidence_bounds (cleanQuery q) (classifyIntent (cleanQuery q))
      (pySetList (extractEntitiesRaw (cleanQuery q)))).2

theorem expand_foldl_mem (t : String) :
    ∀ (l acc : List String),
      t ∈ l.foldl (fun a w => a ++ lookupSyn w) acc
        ↔ t ∈ acc ∨ ∃ w ∈ l, t ∈ lookupSyn w := by
  intro l
  induction l with
  | nil => intro acc; simp
  | cons w ws ih =>
      intro acc
      rw [List.foldl_cons, ih]
      constructor
      · rintro (hmem | ⟨x, hx, ht⟩)
        · rcases List.mem_append.mp hmem with h | h
          · exact Or.inl h
          · exact Or.inr ⟨w, List.mem_cons_self w ws, h⟩
        · exact Or.inr ⟨x, List.mem_cons_of_mem _ hx, ht⟩
      · rintro (h | ⟨x, hx, ht⟩)
        · exact Or.inl (List.mem_append.mpr (Or.inl h))
        · rcases List.mem_cons.mp hx with rfl | hx
          · exact Or.inl (List.mem_append.mpr (Or.inr ht))
          · exact Or.inr ⟨x, hx, ht⟩

/-- Claim C9: every expanded term comes from the value list of a synonym-
table key that occurs as an exact token of the query, and a query whose
token is "transformers" (not "transformer") yields no expansion at all. -/
theorem expansion_exact_token_match :
    (∀ q t, t ∈ pySetList (expandRaw q) →
      ∃ w, w ∈ pySplit q ∧ ∃ l, synonymDict.lookup w = some l ∧ t ∈ l)
    ∧ pySetList (expandRaw (cleanQuery "use of transformers")) = [] := by
  constructor
  · intro q t ht
    rw [pySetList, List.mem_dedup, expandRaw] at ht
    rcases (expand_foldl_mem t (pySplit q) []).mp ht with h | ⟨w, hw, hl⟩
    · simp at h
    · refine ⟨w, hw, ?_⟩
      cases hsyn : synonymDict.lookup w with
      | none => rw [lookupSyn, hsyn] at hl; simp at hl
      | some l => rw [lookupSyn, hsyn] at hl; exact ⟨l, rfl, hl⟩
  · decide

/-- Witness for `expansion_exact_token_match`: the expanded term "BERT" for
the query "transformer" comes from the "transformer" key. -/
theorem expansion_exact_token_match_w :
    ∃ w, w ∈ pySplit "transformer"
      ∧ ∃ l, synonymDict.lookup w = some l ∧ "BERT" ∈ l :=
  expansion_exact_token_match.1 "transformer" "BERT" (by decide)

/-- Claim C10: `analyze_query` returns the raw input verbatim as
`original_query`, while every other field is computed from the cleaned
(whitespace-collapsed, special-character-stripped, lowercased) text. -/
theorem analyze_preserves_original (q : String) :
    (analyzeQuery q).original_query = q
    ∧ (analyzeQuery q).intent = classifyIntent (cleanQuery q)
    ∧ (analyzeQuery q).entities = pySetList (extractEntitiesRaw (cleanQuery q))
    ∧ (analyzeQuery q).keywords = extractKeywords (cleanQuery q)
    ∧ (analyzeQuery q).expanded_terms = pySetList (expandRaw (cleanQuery q))
    ∧ (analyzeQuery q).reformulated_queries
        = reformulateQuery (cleanQuery q) (classifyIntent (cleanQuery q))
    ∧ (analyzeQuery q).confidence
        = calcConfidence (cleanQuery q) (classifyIntent (cleanQuery q))
            (pySetList (extractEntitiesRaw (cleanQuery q))) :=
  ⟨rfl, rfl, rfl, rfl, rfl, rfl, rfl⟩
